import Mathlib

/-!
Verification of the convertly background-removal code.

The repository contains two background-removal implementations:

* `handleBackgroundRemoval` in `src/App.tsx`: a per-pixel chroma-key loop that
  sets the alpha byte to 0 whenever the pixel's R, G and B bytes are each
  strictly greater than 200.

* `removeBackground` (with its helpers `createInitialMask`,
  `refineMaskWithEdges`, `applyMorphologicalOperations`, `applyMaskToImage`
  and `featherMaskEdges`) in the alternate version of `App.tsx`: the
  multi-stage histogram / Sobel / morphology segmentation pipeline.

Buffers are modelled as flat lists of natural numbers (byte values), exactly
as the JS code views `Uint8ClampedArray` / `Uint8Array` contents: 4 bytes per
pixel (R, G, B, A) in row-major order, masks one byte per pixel.  Every stage
of the JS code only reads from the arrays of the previous pass and writes
each cell at most once, so each stage is translated as a pointwise
recomputation of the whole array.
-/

set_option maxRecDepth 100000

namespace Convertly

/-- Builds the list `[f 0, f 1, ..., f (n-1)]`.  Used to express each JS
array-filling loop as a pure pointwise computation. -/
def tabulate (n : ℕ) (f : ℕ → ℕ) : List ℕ :=
  (List.range n).map f

/-- A mask value is binary when it is 0 or 255. -/
def BinaryVal (v : ℕ) : Prop := v = 0 ∨ v = 255

/-! ### The chroma-key transform of `handleBackgroundRemoval` (src/App.tsx)

JS source, acting in place on the RGBA byte array:

    for (let i = 0; i < data.length; i += 4) {
      const r = data[i];
      const g = data[i + 1];
      const b = data[i + 2];
      if (r > 200 && g > 200 && b > 200) {
        data[i + 3] = 0; // Make transparent
      }
    }

Only bytes at index `i + 3` (alpha positions, index mod 4 = 3) are ever
written, and the decision reads the three preceding bytes of the same pixel.
-/

/-- The per-pixel transform performed by `handleBackgroundRemoval`. -/
def handleBackgroundRemoval (data : List ℕ) : List ℕ :=
  tabulate data.length fun i =>
    if i % 4 = 3 ∧ 200 < data.getD (i - 3) 0 ∧ 200 < data.getD (i - 2) 0 ∧
        200 < data.getD (i - 1) 0 then 0
    else data.getD i 0

/-! ### The segmentation pipeline (alternate App.tsx version)

The following definitions translate, stage by stage, the functions
`createInitialMask`, `refineMaskWithEdges`, `applyMorphologicalOperations`,
`applyMaskToImage`, `featherMaskEdges` and their driver `removeBackground`.
-/

/-- The `backgroundOptions` configuration record, restricted to the fields the
pipeline reads.  The fractional fields are modelled as exact rationals. -/
structure BackgroundOptions where
  colorThreshold : ℕ
  edgeSensitivity : ℚ
  featherEdges : Bool
  featherAmount : ℕ
  refineMask : Bool
  maskContrast : ℚ
  deriving Repr, DecidableEq

/-- The default configuration from the source: colorThreshold 40,
edgeSensitivity 0.3, featherEdges true, featherAmount 3, refineMask true,
maskContrast 1.2. -/
def defaultBackgroundOptions : BackgroundOptions :=
  { colorThreshold := 40
    edgeSensitivity := mkRat 3 10
    featherEdges := true
    featherAmount := 3
    refineMask := true
    maskContrast := mkRat 12 10 }

/-- Byte index of the red channel of pixel `(x, y)`: the JS expression
`(y * width + x) * 4`. -/
def pix (w x y : ℕ) : ℕ :=
  4 * (y * w + x)

/-- Interior test used by every stage loop `for (y = 1; y < height - 1; ...)`
and likewise for `x`. -/
def interiorAt (w h x y : ℕ) : Prop :=
  1 ≤ x ∧ x + 1 < w ∧ 1 ≤ y ∧ y + 1 < h

instance (w h x y : ℕ) : Decidable (interiorAt w h x y) := by
  unfold interiorAt
  infer_instance

/-- The interior pixel coordinates in the order the JS nested loops visit
them: `y` outer from 1 to height-2, `x` inner from 1 to width-2. -/
def interiorCoords (w h : ℕ) : List (ℕ × ℕ) :=
  (List.range' 1 (h - 2)).flatMap fun y => (List.range' 1 (w - 2)).map fun x => (x, y)

/-- Quantized color key of a pixel, the JS template string
`Math.floor(r/8) + "," + Math.floor(g/8) + "," + Math.floor(b/8)` modelled
as the triple of quantized channels. -/
def quantKey (data : List ℕ) (w x y : ℕ) : ℕ × ℕ × ℕ :=
  (data.getD (pix w x y) 0 / 8, data.getD (pix w x y + 1) 0 / 8, data.getD (pix w x y + 2) 0 / 8)

/-- Absolute difference of two bytes of the buffer, `Math.abs(a - b)`. -/
def byteDiff (data : List ℕ) (i j : ℕ) : ℕ :=
  ((data.getD i 0 : ℤ) - (data.getD j 0 : ℤ)).natAbs

/-- Sum of absolute per-channel differences of pixel `(x, y)` to its four
direct neighbors, the `colorDiff` accumulator of `createInitialMask`. -/
def colorDiffAt (data : List ℕ) (w x y : ℕ) : ℕ :=
  byteDiff data (pix w x y) (pix w (x - 1) y) +
    byteDiff data (pix w x y + 1) (pix w (x - 1) y + 1) +
    byteDiff data (pix w x y + 2) (pix w (x - 1) y + 2) +
    (byteDiff data (pix w x y) (pix w (x + 1) y) +
      byteDiff data (pix w x y + 1) (pix w (x + 1) y + 1) +
      byteDiff data (pix w x y + 2) (pix w (x + 1) y + 2)) +
    (byteDiff data (pix w x y) (pix w x (y - 1)) +
      byteDiff data (pix w x y + 1) (pix w x (y - 1) + 1) +
      byteDiff data (pix w x y + 2) (pix w x (y - 1) + 2)) +
    (byteDiff data (pix w x y) (pix w x (y + 1)) +
      byteDiff data (pix w x y + 1) (pix w x (y + 1) + 1) +
      byteDiff data (pix w x y + 2) (pix w x (y + 1) + 2))

/-- Membership of pixel `(x, y)` in the `edgePixels` set of
`createInitialMask`: an interior pixel whose color difference to its four
neighbors exceeds 100. -/
def isEdgePixel (data : List ℕ) (w h x y : ℕ) : Bool :=
  decide (interiorAt w h x y ∧ 100 < colorDiffAt data w x y)

/-- One `colorHistogram.set(colorKey, (colorHistogram.get(colorKey) || 0) + 1)`
step.  A JS `Map` keeps first-insertion order, so the histogram is an
association list: an existing key is bumped in place, a new key is appended. -/
def histAdd (h : List ((ℕ × ℕ × ℕ) × ℕ)) (k : ℕ × ℕ × ℕ) : List ((ℕ × ℕ × ℕ) × ℕ) :=
  match h with
  | [] => [(k, 1)]
  | (k0, c) :: t => if k0 = k then (k0, c + 1) :: t else (k0, c) :: histAdd t k

/-- The color histogram built over the interior pixels, in JS `Map`
insertion order. -/
def colorHistogram (data : List ℕ) (w h : ℕ) : List ((ℕ × ℕ × ℕ) × ℕ) :=
  (interiorCoords w h).foldl (fun acc p => histAdd acc (quantKey data w p.1 p.2)) []

/-- Inserts an entry into a count-descending list, after all entries of
greater or equal count: the insertion step of a stable descending sort. -/
def insertByCount {α : Type} (x : α × ℕ) : List (α × ℕ) → List (α × ℕ)
  | [] => [x]
  | y :: t => if y.2 < x.2 then x :: y :: t else y :: insertByCount x t

/-- Stable sort by descending count: entries are inserted in first-seen
order, and an entry never moves past one of equal count, so ties keep their
original relative order — the behavior of the stable JS
`sort((a, b) => b[1] - a[1])`. -/
def sortByCountDesc {α : Type} (l : List (α × ℕ)) : List (α × ℕ) :=
  l.foldl (fun acc x => insertByCount x acc) []

/-- The five highest-count buckets,
`Array.from(colorHistogram.entries()).sort((a, b) => b[1] - a[1]).slice(0, 5)`. -/
def sortedColors (data : List ℕ) (w h : ℕ) : List ((ℕ × ℕ × ℕ) × ℕ) :=
  (sortByCountDesc (colorHistogram data w h)).take 5

/-- Squared Euclidean RGB distance from a pixel's color to a de-quantized
bucket color `(br*8, bg*8, bb*8)`.  The JS code compares
`Math.sqrt(distanceSq) < currentThreshold`; since both sides are
nonnegative this is equivalent to comparing the squares, which is how the
comparison is phrased below. -/
def sqDistTo (r g b : ℕ) (k : ℕ × ℕ × ℕ) : ℕ :=
  ((r : ℤ) - 8 * k.1).natAbs ^ 2 + ((g : ℤ) - 8 * k.2.1).natAbs ^ 2 +
    ((b : ℤ) - 8 * k.2.2).natAbs ^ 2

/-- The background test of the classification loop of `createInitialMask` for
one candidate bucket: `distance < currentThreshold && count > w*h*0.05`.
With `isEdge` the threshold is `1.5 * colorThreshold`, so
`distance < 1.5*t` becomes `4*d2 < 9*t^2`; the exact real factor `0.05`
becomes the exact integer comparison `20*count > w*h`. -/
def bucketMatches (thr : ℕ) (isEdge : Bool) (wh : ℕ) (r g b : ℕ)
    (kc : (ℕ × ℕ × ℕ) × ℕ) : Bool :=
  (if isEdge then decide (4 * sqDistTo r g b kc.1 < 9 * thr ^ 2)
   else decide (sqDistTo r g b kc.1 < thr ^ 2)) &&
    decide (wh < 20 * kc.2)

/-- Stage 1, `createInitialMask`: histogram classification producing the
initial mask (0 = background, 255 = foreground).  The per-candidate loop with
`break` is an existence test, hence `List.any`; the final
`if (isEdge) isBackground = false` override is the outer conditional. -/
def createInitialMask (cfg : BackgroundOptions) (data : List ℕ) (w h : ℕ) : List ℕ :=
  let cands := sortedColors data w h
  tabulate (w * h) fun px =>
    let x := px % w
    let y := px / w
    let r := data.getD (4 * px) 0
    let g := data.getD (4 * px + 1) 0
    let b := data.getD (4 * px + 2) 0
    let isEdge := isEdgePixel data w h x y
    let isBackground :=
      if isEdge then false
      else cands.any (bucketMatches cfg.colorThreshold isEdge (w * h) r g b)
    if isBackground then 0 else 255

/-- Stage 2 edge map, the Sobel-like gradient test of `refineMaskWithEdges`.
The source addresses bytes with raw offsets from `idx = (y*width+x)*4`:
`gx` reads the red channel at columns `x-1, x+1` of rows `y, y+1, y+2`, and
`gy` reads the red, green and blue channels at rows `y-1, y+1` of column `x`.
For `y = height - 2` the row `y + 2` reads fall outside the array; in JS the
reads yield `undefined`, the gradient becomes `NaN` and the comparison is
false, modelled here by `Option` reads that force the result to `false`.
The test `Math.sqrt(gx*gx + gy*gy) > 255 * sensitivity` is evaluated with
both sides squared and the rational sensitivity `num/den` cleared of its
denominator: `(gx*gx + gy*gy) * den^2 > 255^2 * num^2`, an exact integer
restatement for the documented nonnegative sensitivity range. -/
def sobelEdgeAt (cfg : BackgroundOptions) (data : List ℕ) (w h x y : ℕ) : Bool :=
  if interiorAt w h x y then
    match data.get? (pix w (x - 1) y), data.get? (pix w (x + 1) y),
        data.get? (pix w (x - 1) (y + 1)), data.get? (pix w (x + 1) (y + 1)),
        data.get? (pix w (x - 1) (y + 2)), data.get? (pix w (x + 1) (y + 2)),
        data.get? (pix w x (y - 1)), data.get? (pix w x (y + 1)),
        data.get? (pix w x (y - 1) + 1), data.get? (pix w x (y + 1) + 1),
        data.get? (pix w x (y - 1) + 2), data.get? (pix w x (y + 1) + 2) with
    | some rl, some rr, some rl1, some rr1, some rl2, some rr2,
      some ru, some rd, some gu, some gd, some bu, some bd =>
        let gx : ℤ := -(rl : ℤ) + rr + (-2) * rl1 + 2 * rr1 + (-(rl2 : ℤ)) + rr2
        let gy : ℤ := -(ru : ℤ) + rd + (-2) * gu + 2 * gd + (-(bu : ℤ)) + bd
        decide (255 ^ 2 * cfg.edgeSensitivity.num ^ 2 <
          (gx * gx + gy * gy) * (cfg.edgeSensitivity.den : ℤ) ^ 2)
    | _, _, _, _, _, _, _, _, _, _, _, _ => false
  else false

/-- Stage 2, `refineMaskWithEdges`: for each pixel of the image,
`if (edgeValue > 0) mask[px] = Math.max(mask[px], edgeValue)` with
`edgeValue` 255 at detected edges and 0 elsewhere.  The in-place update
touches only indices below `w * h`. -/
def refineMaskWithEdges (cfg : BackgroundOptions) (mask data : List ℕ) (w h : ℕ) : List ℕ :=
  tabulate mask.length fun px =>
    if px < w * h ∧ sobelEdgeAt cfg data w h (px % w) (px / w) then
      max (mask.getD px 0) 255
    else mask.getD px 0

/-- The 3x3 neighborhood offsets `(dy, dx)` in loop order. -/
def nbhd : List (ℕ × ℕ) :=
  (List.range 3).flatMap fun dy => (List.range 3).map fun dx => (dy, dx)

/-- Minimum of a mask over the 3x3 neighborhood of interior pixel `(x, y)`,
the erosion accumulator starting at 255.  The JS bounds check
`ny >= 0 && ny < height && nx >= 0 && nx < width` is vacuous on interior
pixels and therefore omitted. -/
def min3x3 (mask : List ℕ) (w x y : ℕ) : ℕ :=
  nbhd.foldl (fun acc d => min acc (mask.getD ((y - 1 + d.1) * w + (x - 1 + d.2)) 0)) 255

/-- Maximum of a mask over the 3x3 neighborhood of interior pixel `(x, y)`,
the dilation accumulator starting at 0. -/
def max3x3 (mask : List ℕ) (w x y : ℕ) : ℕ :=
  nbhd.foldl (fun acc d => max acc (mask.getD ((y - 1 + d.1) * w + (x - 1 + d.2)) 0)) 0

/-- Erosion pass of `applyMorphologicalOperations`: `eroded` starts as a copy
of the mask and interior pixels become the 3x3 minimum of the original mask. -/
def erodeMask (mask : List ℕ) (w h : ℕ) : List ℕ :=
  tabulate mask.length fun px =>
    if interiorAt w h (px % w) (px / w) then min3x3 mask w (px % w) (px / w)
    else mask.getD px 0

/-- Dilation pass of `applyMorphologicalOperations`: interior pixels of the
mask become the 3x3 maximum of the eroded copy.  Border pixels were never
written by either pass; since erosion also copies the border, they keep the
pre-erosion value. -/
def dilateMask (eroded : List ℕ) (w h : ℕ) : List ℕ :=
  tabulate eroded.length fun px =>
    if interiorAt w h (px % w) (px / w) then max3x3 eroded w (px % w) (px / w)
    else eroded.getD px 0

/-- Stage 3, `applyMorphologicalOperations`: binary opening, erosion then
dilation. -/
def applyMorphologicalOperations (mask : List ℕ) (w h : ℕ) : List ℕ :=
  dilateMask (erodeMask mask w h) w h

/-- Stages 1-3 composed: the mask handed to the alpha compositor. -/
def maskPipeline (cfg : BackgroundOptions) (data : List ℕ) (w h : ℕ) : List ℕ :=
  applyMorphologicalOperations
    (refineMaskWithEdges cfg (createInitialMask cfg data w h) data w h) w h

/-- Stage 4, `applyMaskToImage`: `data[i + 3] = mask[i / 4]` for every pixel;
all other bytes are untouched. -/
def applyMaskToImage (data mask : List ℕ) : List ℕ :=
  tabulate data.length fun i =>
    if i % 4 = 3 then mask.getD (i / 4) 0 else data.getD i 0

/-- Feathering weight `Math.max(0, 1 - distance / featherAmount)` for an
offset `(dx, dy)`, with `distance = Math.sqrt(dx*dx + dy*dy)`.  The JS
floating-point arithmetic is modelled exactly over the reals. -/
noncomputable def featherWeight (A : ℕ) (dx dy : ℤ) : ℝ :=
  max 0 (1 - Real.sqrt ((dx : ℝ) ^ 2 + (dy : ℝ) ^ 2) / A)

/-- The `(totalWeight, weightedSum)` accumulators of `featherMaskEdges` for
pixel `(x, y)`: a sum over the square window of radius `featherAmount`,
restricted to in-bounds neighbors. -/
noncomputable def featherTotals (data : List ℕ) (w h A x y : ℕ) : ℝ × ℝ :=
  ((List.range (2 * A + 1)).flatMap fun dy =>
      (List.range (2 * A + 1)).map fun dx => ((dy : ℤ) - A, (dx : ℤ) - A)).foldl
    (fun acc d =>
      let ny : ℤ := (y : ℤ) + d.1
      let nx : ℤ := (x : ℤ) + d.2
      if 0 ≤ ny ∧ ny < h ∧ 0 ≤ nx ∧ nx < w then
        let wgt := featherWeight A d.2 d.1
        let nAlpha : ℕ := data.getD (4 * (ny.toNat * w + nx.toNat) + 3) 0
        (acc.1 + wgt, acc.2 + nAlpha * wgt)
      else acc)
    (0, 0)

/-- Stage 5, `featherMaskEdges` (runs only when `featherEdges` is set): every
pixel whose alpha is strictly between 0 and 255 gets the rounded, clamped
weighted average of the window alphas, provided the total weight is positive;
all other bytes are copied unchanged.  JS `Math.round` is floor of `x + 1/2`.
With `featherAmount = 0` the JS weight of the center offset is
`Math.max(0, 1 - 0/0) = NaN`, the total weight is `NaN`, the positivity test
fails and nothing is written, hence the explicit first case. -/
noncomputable def featherMaskEdges (cfg : BackgroundOptions) (data : List ℕ) (w h : ℕ) :
    List ℕ :=
  if cfg.featherAmount = 0 then data
  else
    tabulate data.length fun i =>
      if i % 4 = 3 ∧ i / 4 < w * h then
        let a := data.getD i 0
        if 0 < a ∧ a < 255 then
          let t := featherTotals data w h cfg.featherAmount ((i / 4) % w) ((i / 4) / w)
          @ite _ (0 < t.1) (Classical.propDecidable _)
            ((min 255 (max 0 ⌊t.2 / t.1 + 1 / 2⌋)).toNat) a
        else a
      else data.getD i 0

/-- The driver `removeBackground`: initial mask, edge refinement,
morphological opening, alpha compositing, then optional feathering.  All mask
stages read the same pixel data (`workingData` is a copy of `data`), and the
mask is composited into the original buffer. -/
noncomputable def removeBackground (cfg : BackgroundOptions) (data : List ℕ) (w h : ℕ) :
    List ℕ :=
  let composited := applyMaskToImage data (maskPipeline cfg data w h)
  if cfg.featherEdges then featherMaskEdges cfg composited w h else composited

/-! ### Concrete scenario inputs -/

/-- Scenario A input: a 4x4 fully opaque solid red image, RGBA bytes
`(255, 0, 0, 255)` for every pixel. -/
def scenarioA : List ℕ :=
  tabulate (4 * 4 * 4) fun i =>
    if i % 4 = 0 then 255 else if i % 4 = 3 then 255 else 0

/-- Scenario B input: a 10x10 fully opaque black image with a 2x2 white
square at its center (columns 4-5, rows 4-5). -/
def scenarioB : List ℕ :=
  tabulate (10 * 10 * 4) fun i =>
    if i % 4 = 3 then 255
    else if 4 ≤ i / 4 % 10 ∧ i / 4 % 10 ≤ 5 ∧ 4 ≤ i / 4 / 10 ∧ i / 4 / 10 ≤ 5 then 255
    else 0

/-- Expected stage-1 mask for scenario B: the white square plus its eight
4-neighbor black pixels, all forced to foreground by the edge override. -/
def maskB1 : List ℕ :=
  tabulate 100 fun px =>
    if 3 ≤ px % 10 ∧ px % 10 ≤ 6 ∧ 3 ≤ px / 10 ∧ px / 10 ≤ 6 ∧
        (px % 10 = 4 ∨ px % 10 = 5 ∨ px / 10 = 4 ∨ px / 10 = 5) then 255
    else 0

/-- Expected stage-2 mask for scenario B: the Sobel-like pass (whose row
offsets are shifted toward larger y) adds the block of columns 3-6, rows 2-5,
keeping the two pixels below the square. -/
def maskB2 : List ℕ :=
  tabulate 100 fun px =>
    if (3 ≤ px % 10 ∧ px % 10 ≤ 6 ∧ 2 ≤ px / 10 ∧ px / 10 ≤ 5) ∨
        (px / 10 = 6 ∧ (px % 10 = 4 ∨ px % 10 = 5)) then 255
    else 0

/-- Expected stage-3 mask for scenario B: after the opening, exactly the 4x4
block of columns 3-6, rows 2-5. -/
def maskB3 : List ℕ :=
  tabulate 100 fun px =>
    if 3 ≤ px % 10 ∧ px % 10 ≤ 6 ∧ 2 ≤ px / 10 ∧ px / 10 ≤ 5 then 255 else 0

/-- The actual scenario B output: alpha 255 exactly on the 4x4 block of
columns 3-6, rows 2-5 (a region strictly larger than, and shifted up from,
the 2x2 white square), every other byte unchanged. -/
def scenarioBOut : List ℕ :=
  tabulate (10 * 10 * 4) fun i =>
    if i % 4 = 3 then
      if 3 ≤ i / 4 % 10 ∧ i / 4 % 10 ≤ 6 ∧ 2 ≤ i / 4 / 10 ∧ i / 4 / 10 ≤ 5 then 255 else 0
    else scenarioB.getD i 0

/-- The expected scenario A output: alpha 0 everywhere, every other byte
unchanged. -/
def scenarioAOut : List ℕ :=
  tabulate (4 * 4 * 4) fun i =>
    if i % 4 = 3 then 0 else scenarioA.getD i 0

/-! ### Helper lemmas -/

theorem tabulate_length (n : ℕ) (f : ℕ → ℕ) : (tabulate n f).length = n := by
  simp [tabulate]

theorem tabulate_getElem (n : ℕ) (f : ℕ → ℕ) (i : ℕ) (h : i < (tabulate n f).length) :
    (tabulate n f)[i] = f i := by
  simp [tabulate]

theorem tabulate_getD (n : ℕ) (f : ℕ → ℕ) (i : ℕ) :
    (tabulate n f).getD i 0 = if i < n then f i else 0 := by
  by_cases h : i < n
  · rw [List.getD_eq_getElem _ _ (by simpa [tabulate_length] using h)]
    simp [tabulate, h]
  · rw [List.getD_eq_default _ _ (by simpa [tabulate_length] using Nat.le_of_not_lt h)]
    simp [h]

theorem getD_oob (l : List ℕ) (i : ℕ) (h : l.length ≤ i) : l.getD i 0 = 0 :=
  List.getD_eq_default _ _ h

/-- Extensionality helper: a list equals a tabulation of its own length when
the tabulated function reproduces every entry. -/
theorem tabulate_eq_self (l : List ℕ) (f : ℕ → ℕ)
    (h : ∀ i, i < l.length → f i = l.getD i 0) : tabulate l.length f = l := by
  apply List.ext_getElem
  · simp [tabulate_length]
  · intro i h1 h2
    rw [tabulate_getElem]
    rw [h i (by simpa [tabulate_length] using h2)]
    exact List.getD_eq_getElem l 0 h2

theorem tabulate_congr (n : ℕ) (f g : ℕ → ℕ) (h : ∀ i, i < n → f i = g i) :
    tabulate n f = tabulate n g := by
  unfold tabulate
  exact List.map_congr_left fun i hi => h i (List.mem_range.mp hi)

theorem replicate_getD (n c i : ℕ) : (List.replicate n c).getD i 0 = if i < n then c else 0 := by
  by_cases h : i < n
  · rw [List.getD_eq_getElem _ _ (by simpa using h)]
    simp [h]
  · rw [List.getD_eq_default _ _ (by simpa using Nat.le_of_not_lt h)]
    simp [h]

/-- Accumulating a fold with an operation preserving a predicate preserves
the predicate; used for the erosion and dilation accumulators. -/
theorem foldl_pres {α : Type} (P : ℕ → Prop) (f : ℕ → α → ℕ)
    (hf : ∀ a x, P a → P (f a x)) :
    ∀ (l : List α) (a : ℕ), P a → P (l.foldl f a)
  | [], _, ha => ha
  | x :: t, a, ha => foldl_pres P f hf t (f a x) (hf a x ha)

theorem binaryVal_min {a b : ℕ} (ha : BinaryVal a) (hb : BinaryVal b) : BinaryVal (min a b) := by
  rcases ha with rfl | rfl <;> rcases hb with rfl | rfl <;> simp [BinaryVal]

theorem binaryVal_max {a b : ℕ} (ha : BinaryVal a) (hb : BinaryVal b) : BinaryVal (max a b) := by
  rcases ha with rfl | rfl <;> rcases hb with rfl | rfl <;> simp [BinaryVal]

theorem binaryVal_ite (c : Prop) [Decidable c] : BinaryVal (if c then (0 : ℕ) else 255) := by
  split
  · exact Or.inl rfl
  · exact Or.inr rfl

theorem createInitialMask_binary (cfg : BackgroundOptions) (data : List ℕ) (w h i : ℕ) :
    BinaryVal ((createInitialMask cfg data w h).getD i 0) := by
  simp only [createInitialMask, tabulate_getD]
  split
  · exact binaryVal_ite _
  · exact Or.inl rfl

theorem refineMaskWithEdges_binary (cfg : BackgroundOptions) (mask data : List ℕ) (w h : ℕ)
    (hm : ∀ j, BinaryVal (mask.getD j 0)) (i : ℕ) :
    BinaryVal ((refineMaskWithEdges cfg mask data w h).getD i 0) := by
  simp only [refineMaskWithEdges, tabulate_getD]
  split
  · split
    · exact binaryVal_max (hm i) (Or.inr rfl)
    · exact hm i
  · exact Or.inl rfl

theorem min3x3_binary (mask : List ℕ) (w x y : ℕ) (hm : ∀ j, BinaryVal (mask.getD j 0)) :
    BinaryVal (min3x3 mask w x y) := by
  unfold min3x3
  exact foldl_pres BinaryVal _ (fun a d ha => binaryVal_min ha (hm _)) nbhd 255 (Or.inr rfl)

theorem max3x3_binary (mask : List ℕ) (w x y : ℕ) (hm : ∀ j, BinaryVal (mask.getD j 0)) :
    BinaryVal (max3x3 mask w x y) := by
  unfold max3x3
  exact foldl_pres BinaryVal _ (fun a d ha => binaryVal_max ha (hm _)) nbhd 0 (Or.inl rfl)

theorem erodeMask_binary (mask : List ℕ) (w h : ℕ) (hm : ∀ j, BinaryVal (mask.getD j 0))
    (i : ℕ) : BinaryVal ((erodeMask mask w h).getD i 0) := by
  simp only [erodeMask, tabulate_getD]
  split
  · split
    · exact min3x3_binary mask w _ _ hm
    · exact hm i
  · exact Or.inl rfl

theorem dilateMask_binary (eroded : List ℕ) (w h : ℕ) (hm : ∀ j, BinaryVal (eroded.getD j 0))
    (i : ℕ) : BinaryVal ((dilateMask eroded w h).getD i 0) := by
  simp only [dilateMask, tabulate_getD]
  split
  · split
    · exact max3x3_binary eroded w _ _ hm
    · exact hm i
  · exact Or.inl rfl

theorem maskPipeline_binary (cfg : BackgroundOptions) (data : List ℕ) (w h i : ℕ) :
    BinaryVal ((maskPipeline cfg data w h).getD i 0) := by
  unfold maskPipeline applyMorphologicalOperations
  exact dilateMask_binary _ w h
    (erodeMask_binary _ w h
      (refineMaskWithEdges_binary cfg _ data w h (createInitialMask_binary cfg data w h))) i

/-- Feathering is the identity on any buffer whose alpha bytes are all 0 or
255, because only alpha values strictly between 0 and 255 are recomputed. -/
theorem featherMaskEdges_of_binary_alpha (cfg : BackgroundOptions) (data : List ℕ) (w h : ℕ)
    (hb : ∀ i, i % 4 = 3 → BinaryVal (data.getD i 0)) :
    featherMaskEdges cfg data w h = data := by
  unfold featherMaskEdges
  split
  · rfl
  · apply tabulate_eq_self
    intro i hi
    by_cases hc : i % 4 = 3 ∧ i / 4 < w * h
    · rw [if_pos hc]
      rcases hb i hc.1 with h0 | h255
      · simp only [h0]
        norm_num
      · simp only [h255]
        norm_num
    · rw [if_neg hc]

/-- Because stages 1-3 only produce the values 0 and 255, the composited
alpha channel is binary and the optional feathering stage is a no-op: the
whole pipeline equals mask computation plus compositing. -/
theorem removeBackground_eq (cfg : BackgroundOptions) (data : List ℕ) (w h : ℕ) :
    removeBackground cfg data w h = applyMaskToImage data (maskPipeline cfg data w h) := by
  unfold removeBackground
  cases hf : cfg.featherEdges
  · simp
  · simp only [if_pos]
    apply featherMaskEdges_of_binary_alpha
    intro i hmod
    simp only [applyMaskToImage, tabulate_getD, hmod]
    split
    · simp only [if_pos]
      exact maskPipeline_binary cfg data w h (i / 4)
    · exact Or.inl rfl

theorem interiorAt_small {w h x y : ℕ} (hs : w < 2 ∨ h < 2) : ¬interiorAt w h x y := by
  unfold interiorAt
  omega

theorem interiorCoords_small (w h : ℕ) (hs : w < 2 ∨ h < 2) : interiorCoords w h = [] := by
  unfold interiorCoords
  rcases hs with hw | hh
  · have hw2 : w - 2 = 0 := by omega
    simp [hw2]
  · have hh2 : h - 2 = 0 := by omega
    simp [hh2]

theorem sortedColors_small (data : List ℕ) (w h : ℕ) (hs : w < 2 ∨ h < 2) :
    sortedColors data w h = [] := by
  unfold sortedColors colorHistogram
  rw [interiorCoords_small w h hs]
  rfl

theorem createInitialMask_small (cfg : BackgroundOptions) (data : List ℕ) (w h : ℕ)
    (hs : w < 2 ∨ h < 2) : createInitialMask cfg data w h = List.replicate (w * h) 255 := by
  simp only [createInitialMask, sortedColors_small data w h hs]
  apply List.ext_getElem
  · simp [tabulate_length]
  · intro i h1 h2
    rw [tabulate_getElem]
    have he : isEdgePixel data w h (i % w) (i / w) = false :=
      decide_eq_false fun hc => interiorAt_small hs hc.1
    simp [he]

theorem sobelEdgeAt_small (cfg : BackgroundOptions) (data : List ℕ) {w h : ℕ} (x y : ℕ)
    (hs : w < 2 ∨ h < 2) : sobelEdgeAt cfg data w h x y = false := by
  unfold sobelEdgeAt
  rw [if_neg (interiorAt_small hs)]

theorem refineMaskWithEdges_small (cfg : BackgroundOptions) (mask data : List ℕ) (w h : ℕ)
    (hs : w < 2 ∨ h < 2) : refineMaskWithEdges cfg mask data w h = mask := by
  unfold refineMaskWithEdges
  apply tabulate_eq_self
  intro i hi
  rw [if_neg]
  intro hc
  rw [sobelEdgeAt_small cfg data _ _ hs] at hc
  exact Bool.false_ne_true hc.2

theorem erodeMask_small (mask : List ℕ) (w h : ℕ) (hs : w < 2 ∨ h < 2) :
    erodeMask mask w h = mask := by
  unfold erodeMask
  apply tabulate_eq_self
  intro i hi
  rw [if_neg (interiorAt_small hs)]

theorem dilateMask_small (mask : List ℕ) (w h : ℕ) (hs : w < 2 ∨ h < 2) :
    dilateMask mask w h = mask := by
  unfold dilateMask
  apply tabulate_eq_self
  intro i hi
  rw [if_neg (interiorAt_small hs)]

theorem maskPipeline_small (cfg : BackgroundOptions) (data : List ℕ) (w h : ℕ)
    (hs : w < 2 ∨ h < 2) : maskPipeline cfg data w h = List.replicate (w * h) 255 := by
  unfold maskPipeline applyMorphologicalOperations
  rw [createInitialMask_small cfg data w h hs, refineMaskWithEdges_small cfg _ data w h hs,
    erodeMask_small _ w h hs, dilateMask_small _ w h hs]

/-! ### Concrete stage-by-stage evaluations of the two scenarios -/

theorem sortedColorsB : sortedColors scenarioB 10 10 = [((0, 0, 0), 60), ((31, 31, 31), 4)] := by
  decide

theorem maskB1_eq : createInitialMask defaultBackgroundOptions scenarioB 10 10 = maskB1 := by
  simp only [createInitialMask, sortedColorsB]
  decide

theorem maskB2_eq :
    refineMaskWithEdges defaultBackgroundOptions maskB1 scenarioB 10 10 = maskB2 := by
  decide

theorem maskB3_eq : applyMorphologicalOperations maskB2 10 10 = maskB3 := by
  decide

theorem maskPipelineB : maskPipeline defaultBackgroundOptions scenarioB 10 10 = maskB3 := by
  unfold maskPipeline
  rw [maskB1_eq, maskB2_eq, maskB3_eq]

theorem maskA1_eq :
    createInitialMask defaultBackgroundOptions scenarioA 4 4 = List.replicate 16 0 := by
  decide

theorem maskA2_eq :
    refineMaskWithEdges defaultBackgroundOptions (List.replicate 16 0) scenarioA 4 4 =
      List.replicate 16 0 := by
  decide

theorem maskA3_eq :
    applyMorphologicalOperations (List.replicate 16 0) 4 4 = List.replicate 16 0 := by
  decide

theorem maskPipelineA : maskPipeline defaultBackgroundOptions scenarioA 4 4 = List.replicate 16 0 := by
  unfold maskPipeline
  rw [maskA1_eq, maskA2_eq, maskA3_eq]

theorem applyMaskToImage_length (data mask : List ℕ) :
    (applyMaskToImage data mask).length = data.length :=
  tabulate_length _ _

/-! ### Claim theorems -/

/-- C1: for every valid RGBA input buffer and configuration, the
background-removal pipeline's output buffer has the same length as the
input, and every byte that is not an alpha byte (index mod 4 different from
3) — that is, every R, G and B byte of every pixel — is byte-identical to
the input's; only alpha bytes may differ. -/
theorem claim_C1_output_contract (cfg : BackgroundOptions) (data : List ℕ) (w h : ℕ)
    (hvalid : data.length = 4 * w * h) :
    (removeBackground cfg data w h).length = data.length ∧
    ∀ i, i % 4 ≠ 3 → (removeBackground cfg data w h).getD i 0 = data.getD i 0 := by
  rw [removeBackground_eq]
  constructor
  · exact applyMaskToImage_length _ _
  · intro i hi
    simp only [applyMaskToImage, tabulate_getD]
    split
    · simp [hi]
    · next hlt => exact (getD_oob data i (Nat.le_of_not_lt hlt)).symm

/-- Witness for C1 at a concrete valid 1x1 input. -/
theorem claim_C1_output_contract_witness :
    ([0, 0, 0, 0] : List ℕ).length = 4 * 1 * 1 ∧
    ((removeBackground defaultBackgroundOptions [0, 0, 0, 0] 1 1).length =
        ([0, 0, 0, 0] : List ℕ).length ∧
      ∀ i, i % 4 ≠ 3 →
        (removeBackground defaultBackgroundOptions [0, 0, 0, 0] 1 1).getD i 0 =
          ([0, 0, 0, 0] : List ℕ).getD i 0) :=
  ⟨rfl, claim_C1_output_contract defaultBackgroundOptions [0, 0, 0, 0] 1 1 rfl⟩

/-- C2 counterexample: on the 10x10 scenario B image with the default
configuration, pixel 23 (column 3, row 2) is a black pixel outside the 2x2
white square, yet the pipeline outputs alpha 255 there — the claim that the
output alpha is 0 at every pixel except the white square is false. -/
theorem claim_C2_counterexample :
    (scenarioB.getD (4 * 23) 0 = 0 ∧ scenarioB.getD (4 * 23 + 1) 0 = 0 ∧
      scenarioB.getD (4 * 23 + 2) 0 = 0) ∧
    ¬(4 ≤ 23 % 10 ∧ 23 % 10 ≤ 5 ∧ 4 ≤ 23 / 10 ∧ 23 / 10 ≤ 5) ∧
    (removeBackground defaultBackgroundOptions scenarioB 10 10).getD (4 * 23 + 3) 0 = 255 := by
  refine ⟨by decide, by decide, ?_⟩
  rw [removeBackground_eq, maskPipelineB]
  decide

/-- C2 (amended): for the 10x10 all-black image with a 2x2 white square at
its center, processed with the default configuration, the output alpha is
255 exactly on the 4x4 block of columns 3-6 and rows 2-5 — a region that
contains the white square but also twelve black pixels, shifted one row up
from being centered on it — and 0 everywhere else; all other bytes are
unchanged. -/
theorem claim_C2_amended :
    removeBackground defaultBackgroundOptions scenarioB 10 10 = scenarioBOut := by
  rw [removeBackground_eq, maskPipelineB]
  decide

/-- C3 counterexample: a 1x1 image passed to the pipeline is not rejected:
no InvalidDimensions error exists anywhere in the code, every stage runs,
and an output buffer is produced (the input with alpha set to 255). -/
theorem claim_C3_counterexample :
    removeBackground defaultBackgroundOptions [10, 20, 30, 40] 1 1 = [10, 20, 30, 255] := by
  rw [removeBackground_eq, maskPipeline_small defaultBackgroundOptions _ 1 1 (Or.inl (by decide))]
  decide

/-- C3 (amended): the pipeline performs no dimension validation.  An input
whose width or height is less than 2 is processed normally: the classifier
finds no interior pixels, marks every pixel foreground, the remaining stages
leave that mask unchanged, and the pipeline returns the input buffer with
every alpha byte set to 255 and all other bytes preserved. -/
theorem claim_C3_amended (cfg : BackgroundOptions) (data : List ℕ) (w h : ℕ)
    (hs : w < 2 ∨ h < 2) (hvalid : data.length = 4 * w * h) :
    removeBackground cfg data w h =
      tabulate data.length fun i => if i % 4 = 3 then 255 else data.getD i 0 := by
  rw [removeBackground_eq, maskPipeline_small cfg data w h hs]
  apply tabulate_congr
  intro i hi
  by_cases hm : i % 4 = 3
  · have hv2 : data.length = 4 * (w * h) := by rw [hvalid, Nat.mul_assoc]
    have hlt : i / 4 < w * h := by omega
    rw [if_pos hm, if_pos hm, replicate_getD, if_pos hlt]
  · rw [if_neg hm, if_neg hm]

/-- Witness for the amended C3 at a concrete 1x1 input. -/
theorem claim_C3_amended_witness :
    ((1 : ℕ) < 2 ∨ (1 : ℕ) < 2) ∧ ([10, 20, 30, 40] : List ℕ).length = 4 * 1 * 1 ∧
    removeBackground defaultBackgroundOptions [10, 20, 30, 40] 1 1 =
      tabulate ([10, 20, 30, 40] : List ℕ).length fun i =>
        if i % 4 = 3 then 255 else ([10, 20, 30, 40] : List ℕ).getD i 0 :=
  ⟨Or.inl (by decide), rfl,
    claim_C3_amended defaultBackgroundOptions [10, 20, 30, 40] 1 1 (Or.inl (by decide)) rfl⟩

/-- C4: the pipeline is deterministic — two runs on byte-identical input
buffers with identical configurations produce byte-identical output buffers.
The translated pipeline is a pure function of the configuration and buffer,
so equal inputs give equal outputs. -/
theorem claim_C4_deterministic (cfg1 cfg2 : BackgroundOptions) (d1 d2 : List ℕ) (w h : ℕ)
    (hc : cfg1 = cfg2) (hd : d1 = d2) :
    removeBackground cfg1 d1 w h = removeBackground cfg2 d2 w h := by
  rw [hc, hd]

/-- Witness for C4 at concrete identical inputs. -/
theorem claim_C4_deterministic_witness :
    defaultBackgroundOptions = defaultBackgroundOptions ∧
    ([1, 2, 3, 4] : List ℕ) = [1, 2, 3, 4] ∧
    removeBackground defaultBackgroundOptions [1, 2, 3, 4] 1 1 =
      removeBackground defaultBackgroundOptions [1, 2, 3, 4] 1 1 :=
  ⟨rfl, rfl, claim_C4_deterministic _ _ _ _ 1 1 rfl rfl⟩

/-- C5: for the 4x4 solid-red image with the default configuration, the
output alpha is 0 at every pixel (the whole image is classified as
background); all other bytes are unchanged. -/
theorem claim_C5_scenarioA :
    removeBackground defaultBackgroundOptions scenarioA 4 4 = scenarioAOut := by
  rw [removeBackground_eq, maskPipelineA]
  decide

/-- C6: the edge-refinement step is monotonic non-decreasing — for every
configuration, mask, buffer and pixel, the mask value after
refineMaskWithEdges is greater than or equal to its value before. -/
theorem claim_C6_monotonic (cfg : BackgroundOptions) (mask data : List ℕ) (w h px : ℕ) :
    mask.getD px 0 ≤ (refineMaskWithEdges cfg mask data w h).getD px 0 := by
  simp only [refineMaskWithEdges, tabulate_getD]
  split
  · split
    · exact le_max_left _ _
    · exact le_refl _
  · next hlt => exact Nat.le_of_eq (getD_oob mask px (Nat.le_of_not_lt hlt))

/-- C7: immediately after the morphological cleaning stage and before
compositing or any optional post-processing, every mask value is exactly 0
or exactly 255, for every input buffer and configuration. -/
theorem claim_C7_binary_mask (cfg : BackgroundOptions) (data : List ℕ) (w h i : ℕ) :
    (maskPipeline cfg data w h).getD i 0 = 0 ∨ (maskPipeline cfg data w h).getD i 0 = 255 :=
  maskPipeline_binary cfg data w h i

/-- C8: for every image whose width or height is less than 2 the classifier
has no interior pixels to build a histogram from and treats the entire image
as foreground — the initial mask is 255 everywhere — rather than failing. -/
theorem claim_C8_small_foreground (cfg : BackgroundOptions) (data : List ℕ) (w h : ℕ)
    (hs : w < 2 ∨ h < 2) : createInitialMask cfg data w h = List.replicate (w * h) 255 :=
  createInitialMask_small cfg data w h hs

/-- Witness for C8 at a concrete 1x1 input. -/
theorem claim_C8_small_foreground_witness :
    ((1 : ℕ) < 2 ∨ (1 : ℕ) < 2) ∧
    createInitialMask defaultBackgroundOptions [10, 20, 30, 40] 1 1 =
      List.replicate (1 * 1) 255 :=
  ⟨Or.inl (by decide),
    claim_C8_small_foreground defaultBackgroundOptions [10, 20, 30, 40] 1 1 (Or.inl (by decide))⟩

/-- C9: the chroma-key transform of handleBackgroundRemoval sets the output
alpha of a pixel to 0 exactly when the pixel's R, G and B bytes are each
strictly greater than 200, and otherwise leaves the alpha byte equal to its
input value. -/
theorem claim_C9_chroma_key (data : List ℕ) (px : ℕ) :
    (handleBackgroundRemoval data).getD (4 * px + 3) 0 =
      if 200 < data.getD (4 * px) 0 ∧ 200 < data.getD (4 * px + 1) 0 ∧
          200 < data.getD (4 * px + 2) 0 then 0
      else data.getD (4 * px + 3) 0 := by
  simp only [handleBackgroundRemoval, tabulate_getD]
  have hm : (4 * px + 3) % 4 = 3 := by omega
  have h3 : 4 * px + 3 - 3 = 4 * px := by omega
  have h2 : 4 * px + 3 - 2 = 4 * px + 1 := by omega
  have h1 : 4 * px + 3 - 1 = 4 * px + 2 := by omega
  split
  · simp only [hm, h3, h2, h1, eq_self_iff_true, true_and]
  · next hlt =>
    rw [getD_oob data (4 * px + 3) (Nat.le_of_not_lt hlt)]
    exact (ite_self 0).symm

/-- C10: the chroma-key transform is idempotent — applying it twice yields
the same buffer as applying it once, because the classification reads only
the R, G and B bytes, which the transform never modifies. -/
theorem claim_C10_idempotent (data : List ℕ) :
    handleBackgroundRemoval (handleBackgroundRemoval data) = handleBackgroundRemoval data := by
  have hlen : (handleBackgroundRemoval data).length = data.length := tabulate_length _ _
  have hna : ∀ j, j % 4 ≠ 3 →
      (handleBackgroundRemoval data).getD j 0 = data.getD j 0 := by
    intro j hj
    simp only [handleBackgroundRemoval, tabulate_getD]
    split
    · rw [if_neg fun hc => hj hc.1]
    · next hop => exact (getD_oob data j (Nat.le_of_not_lt hop)).symm
  apply tabulate_eq_self
  intro i hi
  rw [hlen] at hi
  by_cases hm : i % 4 = 3
  · have e3 : (handleBackgroundRemoval data).getD (i - 3) 0 = data.getD (i - 3) 0 :=
      hna _ (by omega)
    have e2 : (handleBackgroundRemoval data).getD (i - 2) 0 = data.getD (i - 2) 0 :=
      hna _ (by omega)
    have e1 : (handleBackgroundRemoval data).getD (i - 1) 0 = data.getD (i - 1) 0 :=
      hna _ (by omega)
    rw [e3, e2, e1]
    by_cases hc : 200 < data.getD (i - 3) 0 ∧ 200 < data.getD (i - 2) 0 ∧
        200 < data.getD (i - 1) 0
    · rw [if_pos ⟨hm, hc.1, hc.2.1, hc.2.2⟩]
      simp only [handleBackgroundRemoval, tabulate_getD]
      rw [if_pos hi, if_pos ⟨hm, hc.1, hc.2.1, hc.2.2⟩]
    · rw [if_neg fun hcc => hc ⟨hcc.2.1, hcc.2.2.1, hcc.2.2.2⟩]
  · rw [if_neg fun hcc => hm hcc.1]

end Convertly
